import Mathlib

/-!
# Verification of the weather-CLI forecast pipeline

Shallow embedding of the final program variant (`FindCityLocation`,
`formatExtraForecastParams`, `createPattern`, `processJsonData`).
Go `float64` arithmetic is modelled by exact rationals `ℚ`; Go's
`int(x)` conversion (truncation toward zero) is `truncInt`.  Go's
float division by zero yields `NaN`/`±Inf`, whose conversion to `int`
is `≤ 0` on the supported code generators (`math.MinInt64` on amd64,
`0` or `math.MinInt64` on arm64), so after the program's
`if stars <= 0 { stars = 1 }` clamp the rendered value is `1` — the
same value the `ℚ` model produces via the `x / 0 = 0` convention.
Go slice indexing panics out of range; the model returns
`Except.error "index out of range"` there.
-/

/-- Go struct `City` from the source. -/
structure City where
  Name : String
  Country : String
deriving DecidableEq

/-- Go struct `GeoCodingResult`; `json.Number` coordinates are kept as the
decimal strings returned by `.String()`. -/
structure GeoCodingResult where
  Name : String
  Latitude : String
  Longitude : String
  Country : String
deriving DecidableEq

/-- Go struct `ForecastParams` from the source. -/
structure ForecastParams where
  Precipitation : Bool
  Sunrise : Bool
  Sunset : Bool
  UVIndex : Bool
  Fahr : Bool
deriving DecidableEq

/-- Go struct `History` (the `"daily"` object of the forecast payload):
parallel arrays keyed by field name.  Temperatures, precipitation and UV
index are `float64` in the source, modelled as `ℚ`. -/
structure History where
  MaxTemps : List ℚ
  MinTemps : List ℚ
  UVIndex : List ℚ
  Sunrise : List String
  Sunset : List String
  Precip : List ℚ
  World : List String
deriving DecidableEq

/-- Model of `formatExtraForecastParams`: the `strings.Builder`
concatenation, one conditional segment per enabled option. -/
def formatExtraForecastParams (f : ForecastParams) : String :=
  "&daily=temperature_2m_max,temperature_2m_min"
    ++ (if f.Precipitation then ",precipitation_sum" else "")
    ++ (if f.Sunrise then ",sunrise" else "")
    ++ (if f.Sunset then ",sunset" else "")
    ++ (if f.UVIndex then ",uv_index_max" else "")
    ++ (if f.Fahr then "&temperature_unit=fahrenheit" else "")

/-- Model of `FindCityLocation`'s candidate scan: first candidate whose `Country`
equals the query's country wins; otherwise the
`fmt.Errorf("Could not find a proper location match for %s of country %s", ...)`
error is returned.  The HTTP fetch and JSON decode that precede the scan
are external collaborators and are represented by the already-decoded
candidate list. -/
def FindCityLocation (results : List GeoCodingResult) (city : City) :
    Except String (String × String) :=
  match results with
  | [] => Except.error ("Could not find a proper location match for "
      ++ city.Name ++ " of country " ++ city.Country)
  | r :: rest =>
      if r.Country = city.Country then Except.ok (r.Latitude, r.Longitude)
      else FindCityLocation rest city

/-- Go `int(x)` for `float64` `x`: truncation toward zero. -/
def truncInt (q : ℚ) : ℤ := if q < 0 then ⌈q⌉ else ⌊q⌋

set_option linter.unusedVariables false in
/-- Model of `createPattern`: clamp `n` into `[0, 5]`, then emit
`n` asterisks followed by `5 - n` spaces.  (The source's
`fmt.Println(n)` side effect in the `n < 0` branch has no bearing on the
returned string; the unused `isFahrenheit` parameter is kept.) -/
def createPattern (n : ℤ) (isFahrenheit : Bool) : String :=
  let stars := if n < 0 then 0 else if n > 5 then 5 else n
  String.mk (List.replicate stars.toNat '*')
    ++ String.mk (List.replicate (5 - stars.toNat) ' ')

/-- The unit conversion applied inside `processJsonData`:
`temp = (temp * 9 / 5) + 32` when `fah`, identity otherwise. -/
def convert (fah : Bool) (t : ℚ) : ℚ := if fah then t * 9 / 5 + 32 else t

/-- One step of the min/max scan of `processJsonData`:
`if minTemp == 0 || temp < minTemp { minTemp = temp }` then
`if temp > maxTemp { maxTemp = temp }`, on the converted temperature. -/
def mmStep (fah : Bool) (mm : ℚ × ℚ) (t : ℚ) : ℚ × ℚ :=
  let temp := convert fah t
  (if mm.1 = 0 ∨ temp < mm.1 then temp else mm.1,
   if mm.2 < temp then temp else mm.2)

/-- The first pass of `processJsonData`: fold `mmStep` over the
max-temperature series starting from the zero values of the
uninitialised `var minTemp, maxTemp float64`. -/
def minMaxPass (fah : Bool) (temps : List ℚ) : ℚ × ℚ :=
  temps.foldl (mmStep fah) (0, 0)

/-- The star computation of the render pass:
`stars := int(((temp - minTemp) / (maxTemp - minTemp)) * 5)` followed by
`if stars <= 0 { stars = 1 }`. -/
def starsFor (temp mn mx : ℚ) : ℤ :=
  let raw := truncInt ((temp - mn) / (mx - mn) * 5)
  if raw ≤ 0 then 1 else raw

/-- Gregorian leap-year rule used by Go's `time` day-of-month check. -/
def isLeap (y : ℕ) : Bool := (y % 4 == 0 && y % 100 != 0) || y % 400 == 0

/-- Days in a month, as validated by Go's `time.Parse`. -/
def daysInMonth (y m : ℕ) : ℕ :=
  if m = 2 then (if isLeap y then 29 else 28)
  else if m = 4 ∨ m = 6 ∨ m = 9 ∨ m = 11 then 30
  else 31

/-- Whether a character is an ASCII digit, with its value. -/
def digitVal (c : Char) : ℕ := c.toNat - 48

/-- Model of `time.Parse("2006-01-02T15:04", s)` followed by
`t.Format("15:04")`: succeeds exactly on 16-character strings
`YYYY-MM-DDTHH:MM` whose fields are in range, and returns the `HH:MM`
part (already zero-padded).  `none` models the parse error the source
swallows by omitting the segment. -/
def parse1504 (s : String) : Option String :=
  match s.toList with
  | [y1, y2, y3, y4, s1, m1, m2, s2, d1, d2, s3, h1, h2, s4, n1, n2] =>
      if y1.isDigit ∧ y2.isDigit ∧ y3.isDigit ∧ y4.isDigit ∧ s1 = '-'
          ∧ m1.isDigit ∧ m2.isDigit ∧ s2 = '-' ∧ d1.isDigit ∧ d2.isDigit
          ∧ s3 = 'T' ∧ h1.isDigit ∧ h2.isDigit ∧ s4 = ':'
          ∧ n1.isDigit ∧ n2.isDigit then
        let y := 1000 * digitVal y1 + 100 * digitVal y2 + 10 * digitVal y3 + digitVal y4
        let mo := 10 * digitVal m1 + digitVal m2
        let d := 10 * digitVal d1 + digitVal d2
        let h := 10 * digitVal h1 + digitVal h2
        let n := 10 * digitVal n1 + digitVal n2
        if 1 ≤ mo ∧ mo ≤ 12 ∧ 1 ≤ d ∧ d ≤ daysInMonth y mo ∧ h ≤ 23 ∧ n ≤ 59 then
          some (String.mk [h1, h2, ':', n1, n2])
        else none
      else none
  | _ => none

/-- Checked slice read: Go's `xs[i]`, which panics out of range. -/
def getOrPanic {α : Type} (xs : List α) (i : ℕ) : Except String α :=
  match xs.get? i with
  | some x => Except.ok x
  | none => Except.error "index out of range"

/-- One optional output segment of the render pass.  The source guards
each with `showX && len(arr) > 0` and only then indexes `arr[i]`
(panicking when `i` is out of range); `f` is the per-element rendering
(`parse1504` for sunrise/sunset, `some` for the numeric fields, whose
`fmt.Sprintf` text is determined by the stored value). -/
def optSegment {α β : Type} (b : Bool) (arr : List α) (i : ℕ) (f : α → Option β) :
    Except String (Option β) :=
  if b ∧ arr.length > 0 then
    match arr.get? i with
    | some x => Except.ok (f x)
    | none => Except.error "index out of range"
  else Except.ok none

/-- One rendered output line of `processJsonData`, structured: the star
indicator (count and `createPattern` text), the converted temperature
(exact, plus the `int(temp)` shown by `%02d`), the unit letter, the
`time` entry, and the four optional segments (`none` = omitted). -/
structure RenderedDay where
  stars : ℤ
  pattern : String
  temp : ℚ
  displayTemp : ℤ
  tempUnit : String
  date : String
  sunrise : Option String
  sunset : Option String
  precip : Option ℚ
  uv : Option ℚ
deriving DecidableEq

/-- The body of the render loop of `processJsonData` at day index `i`,
given the min/max of the first pass.  Field order follows the source:
temperature line first (indexing `MaxTemps[i]` and `World[i]`), then
sunrise, sunset, precipitation, UV index. -/
def renderDay (h : History) (fah showPrecip showUV showSunrise showSunset : Bool)
    (mn mx : ℚ) (i : ℕ) : Except String RenderedDay := do
  let t0 ← getOrPanic h.MaxTemps i
  let temp := convert fah t0
  let stars := starsFor temp mn mx
  let date ← getOrPanic h.World i
  let sr ← optSegment showSunrise h.Sunrise i parse1504
  let ss ← optSegment showSunset h.Sunset i parse1504
  let pr ← optSegment showPrecip h.Precip i some
  let uv ← optSegment showUV h.UVIndex i some
  Except.ok
    { stars := stars
      pattern := createPattern stars true
      temp := temp
      displayTemp := truncInt temp
      tempUnit := if fah then "F" else "C"
      date := date
      sunrise := sr
      sunset := ss
      precip := pr
      uv := uv }

/-- The render loop `for i := 0; i < len(MaxTemps); i++`, over an
explicit index list, stopping at the first panic. -/
def renderDays (h : History) (fah showPrecip showUV showSunrise showSunset : Bool)
    (mn mx : ℚ) : List ℕ → Except String (List RenderedDay)
  | [] => Except.ok []
  | i :: is => do
      let d ← renderDay h fah showPrecip showUV showSunrise showSunset mn mx i
      let rest ← renderDays h fah showPrecip showUV showSunrise showSunset mn mx is
      Except.ok (d :: rest)

/-- Model of `processJsonData` after JSON decoding (decoding is an external
collaborator; its result is the `History` argument): the min/max pass
followed by the render loop over all day indices.  Parameter order
matches the source signature. -/
def processJsonData (h : History) (fah showPrecip showUV showSunrise showSunset : Bool) :
    Except String (List RenderedDay) :=
  let mm := minMaxPass fah h.MaxTemps
  renderDays h fah showPrecip showUV showSunrise showSunset mm.1 mm.2
    (List.range h.MaxTemps.length)

/-! ## Concrete payloads used in scenarios and witnesses -/

/-- Whether an `Except` result is a success. -/
def isOkResult {α : Type} : Except String α → Bool
  | Except.ok _ => true
  | Except.error _ => false

/-- The forecast series of the spec's round-trip scenario. -/
def hist3 : History :=
  ⟨[10, 15, 20], [], [], [], [], [], ["2024-01-01", "2024-01-02", "2024-01-03"]⟩

/-- Rendered day 1 of `hist3` (Celsius path). -/
def day1 : RenderedDay := ⟨1, "*    ", 10, 10, "C", "2024-01-01", none, none, none, none⟩

/-- Rendered day 2 of `hist3` (Celsius path). -/
def day2 : RenderedDay := ⟨2, "**   ", 15, 15, "C", "2024-01-02", none, none, none, none⟩

/-- Rendered day 3 of `hist3` (Celsius path). -/
def day3 : RenderedDay := ⟨5, "*****", 20, 20, "C", "2024-01-03", none, none, none, none⟩

/-! ## Helper lemmas -/

theorem except_ok_bind {α β : Type} (a : α) (f : α → Except String β) :
    (Except.ok a >>= f) = f a := rfl

theorem except_error_bind {α β : Type} (e : String) (f : α → Except String β) :
    ((Except.error e : Except String α) >>= f) = Except.error e := rfl

theorem getOrPanic_ok_iff {α : Type} {xs : List α} {i : ℕ} {a : α} :
    getOrPanic xs i = Except.ok a ↔ xs.get? i = some a := by
  unfold getOrPanic
  cases h : xs.get? i <;> simp

theorem getOrPanic_ok_of_lt {α : Type} {xs : List α} {i : ℕ} (h : i < xs.length) :
    ∃ a, getOrPanic xs i = Except.ok a ∧ xs.get? i = some a := by
  cases hg : xs.get? i with
  | none => exact absurd (List.get?_eq_none.1 hg) (Nat.not_le.2 h)
  | some a => exact ⟨a, getOrPanic_ok_iff.2 hg, rfl⟩

theorem optSegment_ok_of {α β : Type} (b : Bool) (arr : List α) (i : ℕ)
    (f : α → Option β) (hcov : b = false ∨ arr = [] ∨ i < arr.length) :
    ∃ v, optSegment b arr i f = Except.ok v := by
  unfold optSegment
  split
  · next hb =>
    rcases hcov with rfl | rfl | hlt
    · simp at hb
    · simp at hb
    · cases hg : arr.get? i with
      | none => exact absurd (List.get?_eq_none.1 hg) (Nat.not_le.2 hlt)
      | some x => exact ⟨f x, by simp [hg]⟩
  · exact ⟨none, rfl⟩

theorem optSegment_nil {α β : Type} (b : Bool) (i : ℕ) (f : α → Option β) :
    optSegment b ([] : List α) i f = Except.ok none := by
  unfold optSegment
  simp

/-! ## Min/max pass invariants -/

theorem mmStep_fst_le_snd (fah : Bool) (mm : ℚ × ℚ) (t : ℚ) (h : mm.1 ≤ mm.2) :
    (mmStep fah mm t).1 ≤ (mmStep fah mm t).2 := by
  unfold mmStep
  dsimp only
  split
  · split
    · exact le_refl _
    · next h2 => exact le_of_not_lt h2
  · split
    · next h2 => exact h.trans (le_of_lt h2)
    · exact h

theorem le_mmStep_snd (fah : Bool) (mm : ℚ × ℚ) (t : ℚ) :
    mm.2 ≤ (mmStep fah mm t).2 := by
  unfold mmStep
  dsimp only
  split
  · next h => exact le_of_lt h
  · exact le_refl _

theorem convert_le_mmStep_snd (fah : Bool) (mm : ℚ × ℚ) (t : ℚ) :
    convert fah t ≤ (mmStep fah mm t).2 := by
  unfold mmStep
  dsimp only
  split
  · exact le_refl _
  · next hns => exact le_of_not_lt hns

theorem foldl_mm_fst_le_snd (fah : Bool) :
    ∀ (l : List ℚ) (mm : ℚ × ℚ), mm.1 ≤ mm.2 →
      (l.foldl (mmStep fah) mm).1 ≤ (l.foldl (mmStep fah) mm).2
  | [], _, h => h
  | t :: l, mm, h =>
    foldl_mm_fst_le_snd fah l (mmStep fah mm t) (mmStep_fst_le_snd fah mm t h)

theorem le_foldl_mm_snd (fah : Bool) :
    ∀ (l : List ℚ) (mm : ℚ × ℚ), mm.2 ≤ (l.foldl (mmStep fah) mm).2
  | [], _ => le_refl _
  | t :: l, mm =>
    le_trans (le_mmStep_snd fah mm t) (le_foldl_mm_snd fah l (mmStep fah mm t))

theorem mem_le_foldl_mm_snd (fah : Bool) :
    ∀ (l : List ℚ) (mm : ℚ × ℚ) (t : ℚ), t ∈ l →
      convert fah t ≤ (l.foldl (mmStep fah) mm).2
  | a :: l, mm, t, ht => by
    rcases List.mem_cons.1 ht with rfl | hmem
    · exact le_trans (convert_le_mmStep_snd fah mm t) (le_foldl_mm_snd fah l _)
    · exact mem_le_foldl_mm_snd fah l (mmStep fah mm a) t hmem

theorem minMaxPass_fst_le_snd (fah : Bool) (l : List ℚ) :
    (minMaxPass fah l).1 ≤ (minMaxPass fah l).2 :=
  foldl_mm_fst_le_snd fah l (0, 0) (le_refl 0)

theorem mem_le_minMaxPass_snd (fah : Bool) (l : List ℚ) (t : ℚ) (ht : t ∈ l) :
    convert fah t ≤ (minMaxPass fah l).2 :=
  mem_le_foldl_mm_snd fah l (0, 0) t ht

/-! ## Star rating bounds -/

theorem truncInt_zero : truncInt 0 = 0 := by
  unfold truncInt
  simp

theorem truncInt_le_ceil (q : ℚ) : truncInt q ≤ ⌈q⌉ := by
  unfold truncInt
  split
  · exact le_refl _
  · exact Int.floor_le_ceil q

theorem starsFor_self (v mx : ℚ) : starsFor v v mx = 1 := by
  unfold starsFor
  simp [truncInt_zero]

theorem starsFor_bounds (temp mn mx : ℚ) (h1 : mn ≤ mx) (h2 : temp ≤ mx) :
    1 ≤ starsFor temp mn mx ∧ starsFor temp mn mx ≤ 5 := by
  unfold starsFor
  dsimp only
  split
  · exact ⟨le_refl 1, by norm_num⟩
  · next hr =>
    push_neg at hr
    refine ⟨hr, ?_⟩
    rcases eq_or_lt_of_le h1 with heq | hlt
    · rw [← heq, sub_self, div_zero, zero_mul, truncInt_zero] at hr
      exact absurd hr (by norm_num)
    · have hden : 0 < mx - mn := sub_pos.2 hlt
      have hratio : (temp - mn) / (mx - mn) ≤ 1 :=
        (div_le_one hden).2 (by linarith)
      have hq5 : (temp - mn) / (mx - mn) * 5 ≤ 5 := by nlinarith
      calc truncInt ((temp - mn) / (mx - mn) * 5)
          ≤ ⌈(temp - mn) / (mx - mn) * 5⌉ := truncInt_le_ceil _
        _ ≤ 5 := by rw [Int.ceil_le]; push_cast; exact hq5

/-! ## Render-loop lemmas -/

theorem renderDay_ok_elim {h : History} {fah sp su sr ss : Bool} {mn mx : ℚ}
    {i : ℕ} {d : RenderedDay}
    (hok : renderDay h fah sp su sr ss mn mx i = Except.ok d) :
    ∃ t0, h.MaxTemps.get? i = some t0 ∧ d.temp = convert fah t0 ∧
      d.stars = starsFor (convert fah t0) mn mx := by
  unfold renderDay at hok
  rcases hmt : getOrPanic h.MaxTemps i with e | t0
  · rw [hmt, except_error_bind] at hok; cases hok
  rw [hmt, except_ok_bind] at hok
  rcases hwd : getOrPanic h.World i with e | date
  · rw [hwd, except_error_bind] at hok; cases hok
  rw [hwd, except_ok_bind] at hok
  rcases hsr : optSegment sr h.Sunrise i parse1504 with e | srv
  · rw [hsr, except_error_bind] at hok; cases hok
  rw [hsr, except_ok_bind] at hok
  rcases hss : optSegment ss h.Sunset i parse1504 with e | ssv
  · rw [hss, except_error_bind] at hok; cases hok
  rw [hss, except_ok_bind] at hok
  rcases hpr : optSegment sp h.Precip i some with e | prv
  · rw [hpr, except_error_bind] at hok; cases hok
  rw [hpr, except_ok_bind] at hok
  rcases huv : optSegment su h.UVIndex i some with e | uvv
  · rw [huv, except_error_bind] at hok; cases hok
  rw [huv, except_ok_bind] at hok
  cases hok
  refine ⟨t0, getOrPanic_ok_iff.1 hmt, ?_, ?_⟩
  · rfl
  · rfl

theorem renderDay_ok_intro (h : History) (fah sp su sr ss : Bool) (mn mx : ℚ)
    (i : ℕ) (h1 : i < h.MaxTemps.length) (h2 : i < h.World.length)
    (c1 : sr = false ∨ h.Sunrise = [] ∨ i < h.Sunrise.length)
    (c2 : ss = false ∨ h.Sunset = [] ∨ i < h.Sunset.length)
    (c3 : sp = false ∨ h.Precip = [] ∨ i < h.Precip.length)
    (c4 : su = false ∨ h.UVIndex = [] ∨ i < h.UVIndex.length) :
    ∃ d t0, renderDay h fah sp su sr ss mn mx i = Except.ok d ∧
      h.MaxTemps.get? i = some t0 ∧ d.temp = convert fah t0 ∧
      d.stars = starsFor (convert fah t0) mn mx ∧
      (h.Sunrise = [] → d.sunrise = none) ∧
      (h.Sunset = [] → d.sunset = none) ∧
      (h.Precip = [] → d.precip = none) ∧
      (h.UVIndex = [] → d.uv = none) := by
  obtain ⟨t0, ht0ok, ht0⟩ := getOrPanic_ok_of_lt h1
  obtain ⟨date, hdok, _⟩ := getOrPanic_ok_of_lt h2
  obtain ⟨srv, hsrv⟩ := optSegment_ok_of sr h.Sunrise i parse1504 c1
  obtain ⟨ssv, hssv⟩ := optSegment_ok_of ss h.Sunset i parse1504 c2
  obtain ⟨prv, hprv⟩ := optSegment_ok_of sp h.Precip i some c3
  obtain ⟨uvv, huvv⟩ := optSegment_ok_of su h.UVIndex i some c4
  refine ⟨{ stars := starsFor (convert fah t0) mn mx
            pattern := createPattern (starsFor (convert fah t0) mn mx) true
            temp := convert fah t0
            displayTemp := truncInt (convert fah t0)
            tempUnit := if fah then "F" else "C"
            date := date
            sunrise := srv
            sunset := ssv
            precip := prv
            uv := uvv }, t0, ?_, ht0, rfl, rfl, ?_, ?_, ?_, ?_⟩
  · unfold renderDay
    rw [ht0ok, except_ok_bind, hdok, except_ok_bind, hsrv, except_ok_bind,
      hssv, except_ok_bind, hprv, except_ok_bind, huvv, except_ok_bind]
  · intro harr
    rw [harr, optSegment_nil] at hsrv
    cases hsrv
    rfl
  · intro harr
    rw [harr, optSegment_nil] at hssv
    cases hssv
    rfl
  · intro harr
    rw [harr, optSegment_nil] at hprv
    cases hprv
    rfl
  · intro harr
    rw [harr, optSegment_nil] at huvv
    cases huvv
    rfl

theorem renderDays_mem {h : History} {fah sp su sr ss : Bool} {mn mx : ℚ} :
    ∀ {is : List ℕ} {l : List RenderedDay},
      renderDays h fah sp su sr ss mn mx is = Except.ok l →
      ∀ d ∈ l, ∃ i ∈ is, renderDay h fah sp su sr ss mn mx i = Except.ok d := by
  intro is
  induction is with
  | nil =>
    intro l hok d hd
    cases hok
    cases hd
  | cons i is ih =>
    intro l hok d hd
    unfold renderDays at hok
    rcases hdi : renderDay h fah sp su sr ss mn mx i with e | d0
    · rw [hdi, except_error_bind] at hok; cases hok
    rw [hdi, except_ok_bind] at hok
    rcases hrest : renderDays h fah sp su sr ss mn mx is with e | rest
    · rw [hrest, except_error_bind] at hok; cases hok
    rw [hrest, except_ok_bind] at hok
    cases hok
    rcases List.mem_cons.1 hd with rfl | hmem
    · exact ⟨i, List.mem_cons_self i is, hdi⟩
    · obtain ⟨j, hj, hjok⟩ := ih hrest d hmem
      exact ⟨j, List.mem_cons_of_mem i hj, hjok⟩

theorem renderDays_length {h : History} {fah sp su sr ss : Bool} {mn mx : ℚ} :
    ∀ {is : List ℕ} {l : List RenderedDay},
      renderDays h fah sp su sr ss mn mx is = Except.ok l →
      l.length = is.length := by
  intro is
  induction is with
  | nil =>
    intro l hok
    cases hok
    rfl
  | cons i is ih =>
    intro l hok
    unfold renderDays at hok
    rcases hdi : renderDay h fah sp su sr ss mn mx i with e | d0
    · rw [hdi, except_error_bind] at hok; cases hok
    rw [hdi, except_ok_bind] at hok
    rcases hrest : renderDays h fah sp su sr ss mn mx is with e | rest
    · rw [hrest, except_error_bind] at hok; cases hok
    rw [hrest, except_ok_bind] at hok
    cases hok
    simp [ih hrest]

theorem renderDays_get?_some {h : History} {fah sp su sr ss : Bool} {mn mx : ℚ} :
    ∀ {is : List ℕ} {l : List RenderedDay} {k i : ℕ},
      renderDays h fah sp su sr ss mn mx is = Except.ok l →
      is.get? k = some i →
      ∃ d, l.get? k = some d ∧ renderDay h fah sp su sr ss mn mx i = Except.ok d := by
  intro is
  induction is with
  | nil =>
    intro l k i hok hk
    cases hk
  | cons j is ih =>
    intro l k i hok hk
    unfold renderDays at hok
    rcases hdi : renderDay h fah sp su sr ss mn mx j with e | d0
    · rw [hdi, except_error_bind] at hok; cases hok
    rw [hdi, except_ok_bind] at hok
    rcases hrest : renderDays h fah sp su sr ss mn mx is with e | rest
    · rw [hrest, except_error_bind] at hok; cases hok
    rw [hrest, except_ok_bind] at hok
    cases hok
    cases k with
    | zero =>
      cases hk
      exact ⟨d0, rfl, hdi⟩
    | succ k =>
      obtain ⟨d, hd, hdok⟩ := ih hrest hk
      exact ⟨d, hd, hdok⟩

theorem renderDays_ok_of_forall {h : History} {fah sp su sr ss : Bool} {mn mx : ℚ}
    (p : RenderedDay → Prop) :
    ∀ {is : List ℕ},
      (∀ i ∈ is, ∃ d, renderDay h fah sp su sr ss mn mx i = Except.ok d ∧ p d) →
      ∃ l, renderDays h fah sp su sr ss mn mx is = Except.ok l ∧
        l.length = is.length ∧ ∀ d ∈ l, p d := by
  intro is
  induction is with
  | nil =>
    intro _
    exact ⟨[], rfl, rfl, by intro d hd; cases hd⟩
  | cons i is ih =>
    intro hall
    obtain ⟨d, hdok, hpd⟩ := hall i (List.mem_cons_self i is)
    obtain ⟨l, hlok, hlen, hl⟩ := ih fun j hj => hall j (List.mem_cons_of_mem i hj)
    refine ⟨d :: l, ?_, by simp [hlen], ?_⟩
    · unfold renderDays
      rw [hdok, except_ok_bind, hlok, except_ok_bind]
    · intro d' hd'
      rcases List.mem_cons.1 hd' with rfl | hmem
      · exact hpd
      · exact hl d' hmem

/-! ## The min/max pass on a constant series -/

theorem mmStep_const (fah : Bool) (v w t : ℚ) (ht : convert fah t = v)
    (hvw : v ≤ w) : mmStep fah (v, w) t = (v, w) := by
  unfold mmStep
  dsimp only
  rw [ht]
  have h1 : (if v = 0 ∨ v < v then v else v) = v := by split <;> rfl
  have h2 : (if w < v then v else w) = w := if_neg (not_lt.2 hvw)
  rw [h1, h2]

theorem foldl_mm_const (fah : Bool) (v w : ℚ) (hvw : v ≤ w) :
    ∀ (l : List ℚ), (∀ t ∈ l, convert fah t = v) →
      l.foldl (mmStep fah) (v, w) = (v, w)
  | [], _ => rfl
  | t :: l, hl => by
    rw [List.foldl_cons, mmStep_const fah v w t (hl t (List.mem_cons_self t l)) hvw]
    exact foldl_mm_const fah v w hvw l fun t' ht' => hl t' (List.mem_cons_of_mem t ht')

theorem minMaxPass_const_fst (fah : Bool) (c : ℚ) (l : List ℚ) (hne : l ≠ [])
    (hl : ∀ t ∈ l, t = c) : (minMaxPass fah l).1 = convert fah c := by
  cases l with
  | nil => exact absurd rfl hne
  | cons a l =>
    have ha : a = c := hl a (List.mem_cons_self a l)
    unfold minMaxPass
    rw [List.foldl_cons]
    have hstep : mmStep fah (0, 0) a
        = (convert fah c, if (0 : ℚ) < convert fah c then convert fah c else 0) := by
      unfold mmStep
      dsimp only
      rw [ha, if_pos (Or.inl rfl)]
    have hvw : convert fah c ≤ (if (0 : ℚ) < convert fah c then convert fah c else 0) := by
      split
      · exact le_refl _
      · next hnot => exact le_of_not_lt hnot
    have hall : ∀ t ∈ l, convert fah t = convert fah c := fun t ht => by
      rw [hl t (List.mem_cons_of_mem a ht)]
    rw [hstep, foldl_mm_const fah _ _ hvw l hall]

/-! ## Claim theorems -/

/-- C2: for every non-empty forecast series and every option setting, the
intensity computed for each rendered day lies in the closed range
`[1, 5]`. -/
theorem intensity_in_closed_range (h : History) (fah sp su sr ss : Bool)
    (l : List RenderedDay) (_hne : h.MaxTemps ≠ [])
    (hok : processJsonData h fah sp su sr ss = Except.ok l) :
    ∀ d ∈ l, 1 ≤ d.stars ∧ d.stars ≤ 5 := by
  intro d hd
  unfold processJsonData at hok
  dsimp only at hok
  obtain ⟨i, -, hdok⟩ := renderDays_mem hok d hd
  obtain ⟨t0, ht0, -, hstars⟩ := renderDay_ok_elim hdok
  rw [hstars]
  exact starsFor_bounds _ _ _ (minMaxPass_fst_le_snd fah h.MaxTemps)
    (mem_le_minMaxPass_snd fah h.MaxTemps t0 (List.get?_mem ht0))

/-- C9: with `useFahrenheit = false`, rendering applies no conversion:
each rendered day's temperature equals the source Celsius value
unchanged, and its intensity is computed from that same value. -/
theorem identity_when_celsius (h : History) (sp su sr ss : Bool)
    (l : List RenderedDay)
    (hok : processJsonData h false sp su sr ss = Except.ok l) (k : ℕ) :
    (l.get? k).map RenderedDay.temp = h.MaxTemps.get? k ∧
      ∀ d, l.get? k = some d →
        d.stars = starsFor d.temp (minMaxPass false h.MaxTemps).1
          (minMaxPass false h.MaxTemps).2 := by
  unfold processJsonData at hok
  dsimp only at hok
  by_cases hk : k < h.MaxTemps.length
  · obtain ⟨d, hd, hdok⟩ := renderDays_get?_some hok (List.get?_range hk)
    obtain ⟨t0, ht0, htemp, hstars⟩ := renderDay_ok_elim hdok
    have hconv : convert false t0 = t0 := rfl
    constructor
    · rw [hd, ht0, Option.map_some']
      rw [htemp, hconv]
    · intro d' hd'
      rw [hd] at hd'
      injection hd' with hd''
      subst hd''
      rw [hstars, htemp]
  · have hlen : l.length = h.MaxTemps.length := by
      have hl := renderDays_length hok
      rwa [List.length_range] at hl
    have hk' : h.MaxTemps.length ≤ k := le_of_not_lt hk
    constructor
    · rw [List.get?_eq_none.2 (by omega), List.get?_eq_none.2 hk']
      rfl
    · intro d hd
      rw [List.get?_eq_none.2 (by omega : l.length ≤ k)] at hd
      cases hd

/-- C10: when the date array covers the temperature array and every
non-empty optional array covers it too, the render loop succeeds for
every day index and every combination of display options (all slice
indexing stays in bounds). -/
theorem render_loop_inbounds (h : History) (fah sp su sr ss : Bool)
    (hw : h.MaxTemps.length ≤ h.World.length)
    (hsr : h.Sunrise ≠ [] → h.MaxTemps.length ≤ h.Sunrise.length)
    (hss : h.Sunset ≠ [] → h.MaxTemps.length ≤ h.Sunset.length)
    (hpr : h.Precip ≠ [] → h.MaxTemps.length ≤ h.Precip.length)
    (huv : h.UVIndex ≠ [] → h.MaxTemps.length ≤ h.UVIndex.length) :
    ∃ l, processJsonData h fah sp su sr ss = Except.ok l ∧
      l.length = h.MaxTemps.length := by
  unfold processJsonData
  dsimp only
  have hall : ∀ i ∈ List.range h.MaxTemps.length,
      ∃ d, renderDay h fah sp su sr ss (minMaxPass fah h.MaxTemps).1
        (minMaxPass fah h.MaxTemps).2 i = Except.ok d ∧ True := by
    intro i hi
    have hi' : i < h.MaxTemps.length := List.mem_range.1 hi
    obtain ⟨d, t0, hdok, -, -, -, -, -, -, -⟩ :=
      renderDay_ok_intro h fah sp su sr ss (minMaxPass fah h.MaxTemps).1
        (minMaxPass fah h.MaxTemps).2 i hi' (lt_of_lt_of_le hi' hw)
        (by rcases eq_or_ne h.Sunrise [] with he | hne'
            · exact Or.inr (Or.inl he)
            · exact Or.inr (Or.inr (lt_of_lt_of_le hi' (hsr hne'))))
        (by rcases eq_or_ne h.Sunset [] with he | hne'
            · exact Or.inr (Or.inl he)
            · exact Or.inr (Or.inr (lt_of_lt_of_le hi' (hss hne'))))
        (by rcases eq_or_ne h.Precip [] with he | hne'
            · exact Or.inr (Or.inl he)
            · exact Or.inr (Or.inr (lt_of_lt_of_le hi' (hpr hne'))))
        (by rcases eq_or_ne h.UVIndex [] with he | hne'
            · exact Or.inr (Or.inl he)
            · exact Or.inr (Or.inr (lt_of_lt_of_le hi' (huv hne'))))
    exact ⟨d, hdok, trivial⟩
  obtain ⟨l, hok, hlen, -⟩ := renderDays_ok_of_forall (fun _ => True) hall
  exact ⟨l, hok, by rw [hlen, List.length_range]⟩

/-- C1 (amended): for every non-empty series whose max-temperature is
constant across all days (the computed minimum equals the computed
maximum on the converted values), rendering succeeds — the zero-range
division does not crash — and every day gets intensity `1` (the
sub-minimum clamp), not `5`. -/
theorem flat_series_intensity_one (h : History) (fah : Bool) (c : ℚ)
    (hne : h.MaxTemps ≠ []) (hconst : ∀ t ∈ h.MaxTemps, t = c)
    (hw : h.MaxTemps.length ≤ h.World.length) :
    ∃ l, processJsonData h fah false false false false = Except.ok l ∧
      l.length = h.MaxTemps.length ∧ ∀ d ∈ l, d.stars = 1 := by
  unfold processJsonData
  dsimp only
  have hmn : (minMaxPass fah h.MaxTemps).1 = convert fah c :=
    minMaxPass_const_fst fah c h.MaxTemps hne hconst
  have hall : ∀ i ∈ List.range h.MaxTemps.length,
      ∃ d, renderDay h fah false false false false (minMaxPass fah h.MaxTemps).1
        (minMaxPass fah h.MaxTemps).2 i = Except.ok d ∧ d.stars = 1 := by
    intro i hi
    have hi' : i < h.MaxTemps.length := List.mem_range.1 hi
    obtain ⟨d, t0, hdok, ht0, htemp, hstars, -, -, -, -⟩ :=
      renderDay_ok_intro h fah false false false false
        (minMaxPass fah h.MaxTemps).1 (minMaxPass fah h.MaxTemps).2 i hi'
        (lt_of_lt_of_le hi' hw) (Or.inl rfl) (Or.inl rfl) (Or.inl rfl) (Or.inl rfl)
    refine ⟨d, hdok, ?_⟩
    have ht0c : t0 = c := hconst t0 (List.get?_mem ht0)
    rw [hstars, ht0c, hmn]
    exact starsFor_self _ _
  obtain ⟨l, hok, hlen, hall'⟩ := renderDays_ok_of_forall (fun d => d.stars = 1) hall
  exact ⟨l, hok, by rw [hlen, List.length_range], hall'⟩

/-- C5 (amended): an optional field whose source array is fully absent
(empty) is silently omitted from every line and rendering succeeds;
enabled optional arrays that are non-empty must cover the temperature
array (a shorter non-empty array makes the render loop fail with an
index-out-of-range panic instead — see the counterexample). -/
theorem empty_optional_array_omitted (h : History) (fah sp su sr ss : Bool)
    (hw : h.MaxTemps.length ≤ h.World.length)
    (h1 : h.Sunrise = [] ∨ h.MaxTemps.length ≤ h.Sunrise.length)
    (h2 : h.Sunset = [] ∨ h.MaxTemps.length ≤ h.Sunset.length)
    (h3 : h.Precip = [] ∨ h.MaxTemps.length ≤ h.Precip.length)
    (h4 : h.UVIndex = [] ∨ h.MaxTemps.length ≤ h.UVIndex.length) :
    ∃ l, processJsonData h fah sp su sr ss = Except.ok l ∧
      l.length = h.MaxTemps.length ∧
      (h.Sunrise = [] → ∀ d ∈ l, d.sunrise = none) ∧
      (h.Sunset = [] → ∀ d ∈ l, d.sunset = none) ∧
      (h.Precip = [] → ∀ d ∈ l, d.precip = none) ∧
      (h.UVIndex = [] → ∀ d ∈ l, d.uv = none) := by
  unfold processJsonData
  dsimp only
  have hall : ∀ i ∈ List.range h.MaxTemps.length,
      ∃ d, renderDay h fah sp su sr ss (minMaxPass fah h.MaxTemps).1
        (minMaxPass fah h.MaxTemps).2 i = Except.ok d ∧
        ((h.Sunrise = [] → d.sunrise = none) ∧ (h.Sunset = [] → d.sunset = none) ∧
          (h.Precip = [] → d.precip = none) ∧ (h.UVIndex = [] → d.uv = none)) := by
    intro i hi
    have hi' : i < h.MaxTemps.length := List.mem_range.1 hi
    obtain ⟨d, t0, hdok, -, -, -, e1, e2, e3, e4⟩ :=
      renderDay_ok_intro h fah sp su sr ss (minMaxPass fah h.MaxTemps).1
        (minMaxPass fah h.MaxTemps).2 i hi' (lt_of_lt_of_le hi' hw)
        (by rcases h1 with he | hle
            · exact Or.inr (Or.inl he)
            · exact Or.inr (Or.inr (lt_of_lt_of_le hi' hle)))
        (by rcases h2 with he | hle
            · exact Or.inr (Or.inl he)
            · exact Or.inr (Or.inr (lt_of_lt_of_le hi' hle)))
        (by rcases h3 with he | hle
            · exact Or.inr (Or.inl he)
            · exact Or.inr (Or.inr (lt_of_lt_of_le hi' hle)))
        (by rcases h4 with he | hle
            · exact Or.inr (Or.inl he)
            · exact Or.inr (Or.inr (lt_of_lt_of_le hi' hle)))
    exact ⟨d, hdok, e1, e2, e3, e4⟩
  obtain ⟨l, hok, hlen, hall'⟩ := renderDays_ok_of_forall
    (fun d => (h.Sunrise = [] → d.sunrise = none) ∧ (h.Sunset = [] → d.sunset = none) ∧
      (h.Precip = [] → d.precip = none) ∧ (h.UVIndex = [] → d.uv = none)) hall
  refine ⟨l, hok, by rw [hlen, List.length_range], ?_, ?_, ?_, ?_⟩
  · exact fun he d hd => (hall' d hd).1 he
  · exact fun he d hd => (hall' d hd).2.1 he
  · exact fun he d hd => (hall' d hd).2.2.1 he
  · exact fun he d hd => (hall' d hd).2.2.2 he

/-- C6: the candidate scan returns the coordinates of the first
candidate (in provider order) whose country field is exactly
string-equal to the requested country, regardless of later matching
candidates. -/
theorem resolve_first_match (results : List GeoCodingResult) (city : City) :
    ∀ (i : ℕ) (r : GeoCodingResult), results.get? i = some r →
      r.Country = city.Country →
      (∀ (j : ℕ) (r' : GeoCodingResult), j < i → results.get? j = some r' →
        r'.Country ≠ city.Country) →
      FindCityLocation results city = Except.ok (r.Latitude, r.Longitude) := by
  induction results with
  | nil =>
    intro i r hget
    cases hget
  | cons a rest ih =>
    intro i r hget hmatch hfirst
    cases i with
    | zero =>
      injection hget with h'
      subst h'
      unfold FindCityLocation
      rw [if_pos hmatch]
    | succ i =>
      have ha : a.Country ≠ city.Country := hfirst 0 a (Nat.succ_pos i) rfl
      unfold FindCityLocation
      rw [if_neg ha]
      exact ih i r hget hmatch fun j r' hj hg => hfirst (j + 1) r' (Nat.succ_lt_succ hj) hg

/-- C7 (amended): when no candidate's country matches, the scan fails
with the error message
`"Could not find a proper location match for <city> of country <country>"`
(capital `C`, unlike the lowercase form the claim quotes), naming
exactly the requested city and country. -/
theorem nomatch_error_message (results : List GeoCodingResult) (city : City)
    (hnone : ∀ r ∈ results, r.Country ≠ city.Country) :
    FindCityLocation results city = Except.error
      ("Could not find a proper location match for " ++ city.Name
        ++ " of country " ++ city.Country) := by
  induction results with
  | nil => rfl
  | cons a rest ih =>
    unfold FindCityLocation
    rw [if_neg (hnone a (List.mem_cons_self a rest))]
    exact ih fun r hr => hnone r (List.mem_cons_of_mem a hr)

/-! ## Concrete scenarios, counterexamples and witnesses -/


/-- C8: the spec's round-trip scenario: series `[10, 15, 20]` °C with
`useFahrenheit = false` yields `minTemp = 10`, `maxTemp = 20` and
intensities `1`, `2`, `5`. -/
theorem roundtrip_10_15_20 :
    minMaxPass false hist3.MaxTemps = (10, 20) ∧
    (processJsonData hist3 false false false false false).map
        (List.map RenderedDay.stars) = Except.ok [1, 2, 5] :=
  ⟨by with_unfolding_all rfl, by with_unfolding_all rfl⟩

/-- C1 counterexample: on the constant series `[10, 10]` the renderer
assigns intensity `1` to every day, not `5` as the claim states (the
zero-range division produces a star count that the
`stars <= 0` clamp raises to `1`). -/
theorem flat_series_not_intensity_five :
    (processJsonData ⟨[10, 10], [], [], [], [], [], ["2024-01-01", "2024-01-02"]⟩
        false false false false false).map (List.map RenderedDay.stars)
      = Except.ok [1, 1] ∧ (1 : ℤ) ≠ 5 :=
  ⟨by with_unfolding_all rfl, by decide⟩

/-- C1 (amended) witness: a concrete flat series renders successfully. -/
theorem flat_series_intensity_one_witness :
    isOkResult (processJsonData ⟨[7, 7], [], [], [], [], [], ["a", "b"]⟩
      false false false false false) = true := by
  obtain ⟨l, hok, -, -⟩ := flat_series_intensity_one
    ⟨[7, 7], [], [], [], [], [], ["a", "b"]⟩ false 7 (by simp)
    (by intro t ht; rcases List.mem_cons.1 ht with rfl | ht2
        · rfl
        · rcases List.mem_cons.1 ht2 with rfl | ht3
          · rfl
          · cases ht3)
    (le_refl _)
  rw [hok]
  rfl

/-- C2 witness: the theorem applied to the round-trip series and its
first rendered day. -/
theorem intensity_in_closed_range_witness :
    1 ≤ day1.stars ∧ day1.stars ≤ 5 :=
  intensity_in_closed_range hist3 false false false false false
    [day1, day2, day3] (by simp [hist3]) (by with_unfolding_all rfl)
    day1 (List.mem_cons_self _ _)

/-- C3: the min/max scan's `minTemp == 0` sentinel re-fires on a series
containing the value `0`, so the computed minimum (`5` for `[0, 5]`) is
not the true minimum; on an all-negative series the computed maximum
stays `0`, which is not an element of the series. -/
theorem minmax_zero_sentinel_bug :
    (minMaxPass false [0, 5]).1 = 5 ∧ (0 : ℚ) ∈ ([0, 5] : List ℚ) ∧ (0 : ℚ) < 5 ∧
    (minMaxPass false [-10, -5]).2 = 0 ∧ (0 : ℚ) ∉ ([-10, -5] : List ℚ) :=
  ⟨by with_unfolding_all rfl, by simp, by norm_num,
    by with_unfolding_all rfl, by norm_num⟩

/-- C4: with `Fahr = true` the request builder appends the provider-side
`temperature_unit=fahrenheit` parameter, *and* the renderer still
applies the client-side `C * 9/5 + 32` conversion to the payload values
(`20 ↦ 68`), so the two conversions are applied on top of each other. -/
theorem fahrenheit_double_conversion :
    formatExtraForecastParams ⟨false, false, false, false, true⟩
      = "&daily=temperature_2m_max,temperature_2m_min&temperature_unit=fahrenheit" ∧
    (processJsonData ⟨[20], [], [], [], [], [], ["2024-01-01"]⟩
        true false false false false).map (List.map RenderedDay.temp)
      = Except.ok [68] :=
  ⟨by with_unfolding_all rfl, by with_unfolding_all rfl⟩

/-- C5 counterexample: a non-empty sunrise array shorter than the
temperature array makes rendering fail with an index-out-of-range panic
at the first uncovered day, instead of silently omitting the field. -/
theorem short_optional_array_panics :
    processJsonData
        ⟨[10, 20], [], [], ["2024-01-01T08:00"], [], [], ["2024-01-01", "2024-01-02"]⟩
        false false false true false
      = Except.error "index out of range" := by
  with_unfolding_all rfl

/-- C5 (amended) witness: fully empty optional arrays render fine with
every option enabled. -/
theorem empty_optional_array_omitted_witness :
    isOkResult (processJsonData ⟨[3, 4], [], [], [], [], [], ["2024-01-01", "2024-01-02"]⟩
      true true true true true) = true := by
  obtain ⟨l, hok, -, -, -, -, -⟩ := empty_optional_array_omitted
    ⟨[3, 4], [], [], [], [], [], ["2024-01-01", "2024-01-02"]⟩ true true true true true
    (le_refl _) (Or.inl rfl) (Or.inl rfl) (Or.inl rfl) (Or.inl rfl)
  rw [hok]
  rfl

/-- C6 witness: with two later candidates also matching, the first
matching candidate's coordinates are returned. -/
theorem resolve_first_match_witness :
    FindCityLocation
      [⟨"Springfield", "39.80", "-89.65", "United States"⟩,
        ⟨"Springfield", "42.10", "-72.59", "Canada"⟩,
        ⟨"Springfield", "44.05", "-123.02", "Canada"⟩]
      ⟨"Springfield", "Canada"⟩
      = Except.ok ("42.10", "-72.59") :=
  resolve_first_match
    [⟨"Springfield", "39.80", "-89.65", "United States"⟩,
      ⟨"Springfield", "42.10", "-72.59", "Canada"⟩,
      ⟨"Springfield", "44.05", "-123.02", "Canada"⟩]
    ⟨"Springfield", "Canada"⟩ 1 ⟨"Springfield", "42.10", "-72.59", "Canada"⟩
    rfl rfl
    (by intro j r' hj hg
        interval_cases j
        injection hg with h'
        subst h'
        decide)

/-- C7 counterexample: the error message actually starts with a capital
`C`, so it is not exactly of the lowercase form the claim quotes. -/
theorem nomatch_message_capitalized :
    FindCityLocation [⟨"Paris", "48.85", "2.35", "France"⟩] ⟨"Paris", "Germany"⟩
      = Except.error "Could not find a proper location match for Paris of country Germany" ∧
    "Could not find a proper location match for Paris of country Germany"
      ≠ "could not find a proper location match for Paris of country Germany" :=
  ⟨by with_unfolding_all rfl, by decide⟩

/-- C7 (amended) witness: the no-match error at a concrete query. -/
theorem nomatch_error_message_witness :
    FindCityLocation [⟨"Lyon", "45.76", "4.84", "France"⟩] ⟨"Lyon", "Italy"⟩
      = Except.error "Could not find a proper location match for Lyon of country Italy" :=
  (nomatch_error_message [⟨"Lyon", "45.76", "4.84", "France"⟩] ⟨"Lyon", "Italy"⟩
    (by intro r hr
        rcases List.mem_cons.1 hr with rfl | hr2
        · decide
        · cases hr2)).trans (by with_unfolding_all rfl)

/-- C9 witness: the theorem applied to the round-trip series at day
index `0`. -/
theorem identity_when_celsius_witness :
    (([day1, day2, day3].get? 0).map RenderedDay.temp = hist3.MaxTemps.get? 0) ∧
      day1.stars = starsFor day1.temp (minMaxPass false hist3.MaxTemps).1
        (minMaxPass false hist3.MaxTemps).2 :=
  ⟨(identity_when_celsius hist3 false false false false [day1, day2, day3]
      (by with_unfolding_all rfl) 0).1,
    (identity_when_celsius hist3 false false false false [day1, day2, day3]
      (by with_unfolding_all rfl) 0).2 day1 rfl⟩

/-- C10 witness: a fully-populated aligned payload renders with every
option enabled. -/
theorem render_loop_inbounds_witness :
    isOkResult (processJsonData
      ⟨[1, 2], [], [3, 4], ["2024-01-01T08:00", "2024-01-02T08:01"],
        ["2024-01-01T17:00", "2024-01-02T17:01"], [5, 6],
        ["2024-01-01", "2024-01-02"]⟩
      true true true true true) = true := by
  obtain ⟨l, hok, -⟩ := render_loop_inbounds
    ⟨[1, 2], [], [3, 4], ["2024-01-01T08:00", "2024-01-02T08:01"],
      ["2024-01-01T17:00", "2024-01-02T17:01"], [5, 6],
      ["2024-01-01", "2024-01-02"]⟩
    true true true true true (le_refl _) (fun _ => le_refl _) (fun _ => le_refl _)
    (fun _ => le_refl _) (fun _ => le_refl _)
  rw [hok]
  rfl
